import Mathlib

/-
  Verification development for the esbuild-plugins repository.

  Shallow embeddings:
  * `Sass`    — the mtime-keyed transformation cache of src/src/plugin.ts
              (the `cached` closure installed when `options.cache` is set,
              together with `maxMtimeMs`).  JavaScript `Map` objects are
              modelled as insertion-ordered association lists, `fsp.stat`
              as a total function `mtime : String → Nat` giving `mtimeMs`,
              and a throwing `transform` as an `Except`-valued function.
  * `IncBuild` — the incremental build-and-watch engine of
              src/unnamed/part_000 (`incrementalBuild`, `triggerBuild`,
              `onInputEvent`, `onModuleEvent`, `startWatchers`,
              `validateResult`), as a small-step machine whose atomic
              segments are delimited by the `await` points of the source.
  * `Esbd`    — the request gate of src/packages/esbd/src/esbd-serve.ts
              (`staticHandler` / `handleRequest`).
-/

namespace Sass

/-- Model of the esbuild OnLoadResult as produced by `transform` in plugin.ts:
only the fields the cache reads are kept (`watchFiles` drives staleness). -/
structure OnLoadResult where
  contents : String
  loader : String
  resolveDir : String
  watchFiles : List String
  deriving DecidableEq, Repr

/-- Model of `CachedResult` (src/src/index): `{type, mtimeMs, result}` as
stored in the per-scope group map.  `mtimeMs` is the freshness mark. -/
structure CachedResult where
  type : String
  mtimeMs : Nat
  result : OnLoadResult
  deriving DecidableEq, Repr

/-- The parts of the esbuild OnResolveArgs that `cached` reads:
`args.resolveDir` is the cache scope and `args.path` the logical key. -/
structure Args where
  path : String
  resolveDir : String
  deriving DecidableEq, Repr

/-- JavaScript `Map.set`: update the binding in place (keeping insertion
order) when the key is present, append otherwise. -/
def assocSet {α : Type} : List (String × α) → String → α → List (String × α)
  | [], k, v => [(k, v)]
  | (k', v') :: rest, k, v =>
      if k' == k then (k, v) :: rest else (k', v') :: assocSet rest k v

/-- One per-scope group: `Map<string, CachedResult>` keyed by `args.path`. -/
abbrev Group := List (String × CachedResult)

/-- The outer cache: `Map<string, Map<string, CachedResult>>` keyed by
`args.resolveDir`. -/
abbrev CacheState := List (String × Group)

/-- plugin.ts `maxMtimeMs`: `stats.reduce((max, {mtimeMs}) => Math.max(max,
mtimeMs), 0)`. -/
def maxMtimeMs (stats : List Nat) : Nat :=
  stats.foldl (fun m x => max m x) 0

/-- Lookup of the cache entry stored for a `(scope, path)` key. -/
def lookupEntry (cache : CacheState) (scope path : String) : Option CachedResult :=
  (List.lookup scope cache).bind (fun g => List.lookup path g)

/-- The `cached(resolve, transform)` loader of plugin.ts (the branch taken
when `options.cache` is set), as a state-passing function.  Returns the
load result (`Except` models a propagated exception), the cache after the
call, and the number of `transform` invocations performed by this call.
Statelines mirrored from the source:
* fetch / create the per-scope group (`cache.get` / `cache.set`);
* on a hit, stat every `watchFiles` entry; if any `mtimeMs` exceeds the
  stored freshness mark, recompute once via `transform(watchFiles[0],
  cached.type)` and install `maxMtimeMs(stats)` as the new mark;
* on a miss, run `transform(resolve(args), typeOf(args))` and install the
  entry whose mark is `maxMtimeMs` of the `watchFiles` of the fresh result. -/
def cachedGet (transform : String → String → Except String OnLoadResult)
    (resolveFn typeOfFn : Args → String) (mtime : String → Nat)
    (cache : CacheState) (args : Args) :
    Except String OnLoadResult × CacheState × Nat :=
  let groupAndCache : Group × CacheState :=
    match List.lookup args.resolveDir cache with
    | some g => (g, cache)
    | none => ([], assocSet cache args.resolveDir [])
  let group := groupAndCache.1
  let cache1 := groupAndCache.2
  match List.lookup args.path group with
  | some c =>
      let watchFiles := c.result.watchFiles
      let stats := watchFiles.map mtime
      if stats.any (fun m => decide (c.mtimeMs < m)) then
        match transform (watchFiles.headD "") c.type with
        | .error e => (.error e, cache1, 1)
        | .ok r =>
            let c1 : CachedResult := { c with result := r, mtimeMs := maxMtimeMs stats }
            (.ok r, assocSet cache1 args.resolveDir (assocSet group args.path c1), 1)
      else (.ok c.result, cache1, 0)
  | none =>
      let filename := resolveFn args
      let ty := typeOfFn args
      match transform filename ty with
      | .error e => (.error e, cache1, 1)
      | .ok r =>
          let entry : CachedResult :=
            { type := ty, mtimeMs := maxMtimeMs (r.watchFiles.map mtime), result := r }
          (.ok r, assocSet cache1 args.resolveDir (assocSet group args.path entry), 1)

/-- A transform that never throws, for claims about successful transforms. -/
def pureTf (f : String → String → OnLoadResult) :
    String → String → Except String OnLoadResult :=
  fun p t => .ok (f p t)

theorem lookup_assocSet_self {α : Type} (l : List (String × α)) (k : String) (v : α) :
    List.lookup k (assocSet l k v) = some v := by
  induction l with
  | nil => simp [assocSet, List.lookup]
  | cons p rest ih =>
      obtain ⟨k', v'⟩ := p
      by_cases h : k' = k
      · subst h
        simp [assocSet, List.lookup]
      · have hb : (k' == k) = false := by
          simp [h]
        have hb2 : (k == k') = false := by
          simp [Ne.symm h]
        simp [assocSet, hb, List.lookup, hb2, ih]

theorem le_foldl_max (l : List Nat) (b : Nat) :
    b ≤ l.foldl (fun m x => max m x) b := by
  induction l generalizing b with
  | nil => simp
  | cons x t ih => exact le_trans (le_max_left b x) (ih (max b x))

theorem mem_le_foldl_max (l : List Nat) (b x : Nat) (hx : x ∈ l) :
    x ≤ l.foldl (fun m x => max m x) b := by
  induction l generalizing b with
  | nil => cases hx
  | cons y t ih =>
      rcases List.mem_cons.mp hx with h | h
      · subst h
        exact le_trans (le_max_right b x) (le_foldl_max t (max b x))
      · exact ih (max b y) h

theorem mem_le_maxMtimeMs (l : List Nat) (x : Nat) (hx : x ∈ l) :
    x ≤ maxMtimeMs l :=
  mem_le_foldl_max l 0 x hx

theorem any_stale_false (stats : List Nat) (T : Nat) (h : ∀ x ∈ stats, x ≤ T) :
    stats.any (fun m => decide (T < m)) = false := by
  induction stats with
  | nil => rfl
  | cons m t ih =>
      have hm : ¬ T < m := not_lt.mpr (h m (List.mem_cons_self m t))
      simp only [List.any_cons, Bool.or_eq_false_iff]
      exact ⟨by simp [hm], ih (fun x hx => h x (List.mem_cons_of_mem m hx))⟩

/-- C3: for a cache entry with dependency list `[A, B]` and freshness mark
`T = c.mtimeMs`, raising the modification time of A above T and calling `get`
performs exactly one recomputation, uses `A` (the first recorded dependency
path) as the root input of the transform, and installs a freshness mark that is
at least `max (mtime A) (mtime B)`. -/
theorem c3_cache_invalidation
    (f : String → String → OnLoadResult) (resolveFn typeOfFn : Args → String)
    (mtime : String → Nat) (cache : CacheState) (args : Args)
    (group : Group) (c : CachedResult) (A B : String)
    (hg : List.lookup args.resolveDir cache = some group)
    (hc : List.lookup args.path group = some c)
    (hw : c.result.watchFiles = [A, B])
    (hstale : c.mtimeMs < mtime A) :
    (cachedGet (pureTf f) resolveFn typeOfFn mtime cache args).1 = .ok (f A c.type) ∧
    (cachedGet (pureTf f) resolveFn typeOfFn mtime cache args).2.2 = 1 ∧
    lookupEntry (cachedGet (pureTf f) resolveFn typeOfFn mtime cache args).2.1
        args.resolveDir args.path =
      some { c with result := f A c.type, mtimeMs := maxMtimeMs [mtime A, mtime B] } ∧
    mtime A ≤ maxMtimeMs [mtime A, mtime B] ∧
    mtime B ≤ maxMtimeMs [mtime A, mtime B] := by
  refine ⟨?_, ?_, ?_, ?_, ?_⟩
  · simp [cachedGet, hg, hc, hw, hstale, pureTf]
  · simp [cachedGet, hg, hc, hw, hstale, pureTf]
  · simp [cachedGet, hg, hc, hw, hstale, pureTf, lookupEntry, lookup_assocSet_self]
  · exact mem_le_maxMtimeMs _ _ (by simp)
  · exact mem_le_maxMtimeMs _ _ (by simp)

/-- Witness for C3 at a concrete cache: entry for key `./x` in scope `s`
has dependencies `["A", "B"]` and mark 5; `mtime A = 7 > 5`, `mtime B = 3`. -/
theorem c3_cache_invalidation_witness :
    (List.lookup "s" ([("s", [("./x", (⟨"css", 5, ⟨"old", "css", "", ["A", "B"]⟩⟩ : CachedResult))])])
        = some [("./x", (⟨"css", 5, ⟨"old", "css", "", ["A", "B"]⟩⟩ : CachedResult))] ∧
      (5 : Nat) < 7) ∧
    ((cachedGet (pureTf fun p t => ⟨p ++ t, "css", "", ["A", "B"]⟩)
        (fun _ => "A") (fun _ => "css") (fun p => if p == "A" then 7 else 3)
        [("s", [("./x", ⟨"css", 5, ⟨"old", "css", "", ["A", "B"]⟩⟩)])]
        ⟨"./x", "s"⟩).1 = .ok ⟨"Acss", "css", "", ["A", "B"]⟩ ∧
      (cachedGet (pureTf fun p t => ⟨p ++ t, "css", "", ["A", "B"]⟩)
        (fun _ => "A") (fun _ => "css") (fun p => if p == "A" then 7 else 3)
        [("s", [("./x", ⟨"css", 5, ⟨"old", "css", "", ["A", "B"]⟩⟩)])]
        ⟨"./x", "s"⟩).2.2 = 1 ∧
      lookupEntry (cachedGet (pureTf fun p t => ⟨p ++ t, "css", "", ["A", "B"]⟩)
        (fun _ => "A") (fun _ => "css") (fun p => if p == "A" then 7 else 3)
        [("s", [("./x", ⟨"css", 5, ⟨"old", "css", "", ["A", "B"]⟩⟩)])]
        ⟨"./x", "s"⟩).2.1 "s" "./x" =
        some ⟨"css", maxMtimeMs [7, 3], ⟨"Acss", "css", "", ["A", "B"]⟩⟩ ∧
      (7 : Nat) ≤ maxMtimeMs [7, 3] ∧
      (3 : Nat) ≤ maxMtimeMs [7, 3]) := by
  refine ⟨⟨by decide, by decide⟩, ?_⟩
  exact c3_cache_invalidation (fun p t => ⟨p ++ t, "css", "", ["A", "B"]⟩)
    (fun _ => "A") (fun _ => "css") (fun p => if p == "A" then 7 else 3)
    [("s", [("./x", ⟨"css", 5, ⟨"old", "css", "", ["A", "B"]⟩⟩)])]
    ⟨"./x", "s"⟩ [("./x", ⟨"css", 5, ⟨"old", "css", "", ["A", "B"]⟩⟩)]
    ⟨"css", 5, ⟨"old", "css", "", ["A", "B"]⟩⟩ "A" "B"
    (by decide) (by decide) (by decide) (by decide)

theorem maxMtimeMs_fresh (L : List Nat) :
    L.any (fun m => decide (maxMtimeMs L < m)) = false :=
  any_stale_false L (maxMtimeMs L) (fun x hx => mem_le_maxMtimeMs L x hx)

/-- C8: a `get` performed immediately after the `put` installed by a miss
for the same `(scope, path)` key, with all dependency mtimes unchanged
(same `mtime` function, so no dependency exceeds the stored freshness
mark), returns the identical cached artifact, invokes the transform zero
times, and leaves the cache state untouched. -/
theorem c8_cache_idempotence
    (f : String → String → OnLoadResult) (resolveFn typeOfFn : Args → String)
    (mtime : String → Nat) (cache : CacheState) (args : Args)
    (hmiss : lookupEntry cache args.resolveDir args.path = none) :
    (cachedGet (pureTf f) resolveFn typeOfFn mtime
        (cachedGet (pureTf f) resolveFn typeOfFn mtime cache args).2.1 args).1 =
      (cachedGet (pureTf f) resolveFn typeOfFn mtime cache args).1 ∧
    (cachedGet (pureTf f) resolveFn typeOfFn mtime
        (cachedGet (pureTf f) resolveFn typeOfFn mtime cache args).2.1 args).2.2 = 0 ∧
    (cachedGet (pureTf f) resolveFn typeOfFn mtime
        (cachedGet (pureTf f) resolveFn typeOfFn mtime cache args).2.1 args).2.1 =
      (cachedGet (pureTf f) resolveFn typeOfFn mtime cache args).2.1 := by
  cases hcase : List.lookup args.resolveDir cache with
  | none =>
      refine ⟨?_, ?_, ?_⟩ <;>
        simp [cachedGet, hcase, pureTf, lookup_assocSet_self, maxMtimeMs_fresh,
          List.lookup]
  | some g =>
      have hpath : List.lookup args.path g = none := by
        simpa [lookupEntry, hcase] using hmiss
      refine ⟨?_, ?_, ?_⟩ <;>
        simp [cachedGet, hcase, hpath, pureTf, lookup_assocSet_self, maxMtimeMs_fresh]

/-- Concrete transform for the C8 witness. -/
def c8wTf : String → String → OnLoadResult :=
  fun _ _ => ⟨"out", "css", "", ["dep1", "dep2"]⟩

/-- Concrete mtime table for the C8 witness. -/
def c8wMtime : String → Nat := fun p => if p == "dep1" then 4 else 2

/-- The first (miss) call of the C8 witness, performing the put. -/
def c8wFirst : Except String OnLoadResult × CacheState × Nat :=
  cachedGet (pureTf c8wTf) (fun _ => "root") (fun _ => "css") c8wMtime [] ⟨"./y", "sc"⟩

/-- The second call of the C8 witness, on the cache left by the first. -/
def c8wSecond : Except String OnLoadResult × CacheState × Nat :=
  cachedGet (pureTf c8wTf) (fun _ => "root") (fun _ => "css") c8wMtime
    c8wFirst.2.1 ⟨"./y", "sc"⟩

/-- Witness for C8 on an initially empty cache. -/
theorem c8_cache_idempotence_witness :
    lookupEntry [] "sc" "./y" = none ∧
    (c8wSecond.1 = c8wFirst.1 ∧ c8wSecond.2.2 = 0 ∧ c8wSecond.2.1 = c8wFirst.2.1) := by
  refine ⟨by decide, ?_⟩
  exact c8_cache_idempotence c8wTf (fun _ => "root") (fun _ => "css") c8wMtime
    [] ⟨"./y", "sc"⟩ (by decide)

/-- C9: transform-failure atomicity.  If the transform invoked by a cache
lookup throws, the exception propagates to the caller (the call returns
`Except.error`) and the entry for the `(scope, path)` key is left
unmodified: on a miss no entry is inserted for the key (only an empty
per-scope group may appear), and on a staleness-triggered recomputation
the whole cache — entry, artifact, dependency list and freshness mark —
is exactly what it was before the call, so a later retry can succeed. -/
theorem c9_transform_failure_atomicity
    (tf : String → String → Except String OnLoadResult)
    (resolveFn typeOfFn : Args → String) (mtime : String → Nat)
    (cache : CacheState) (args : Args) (e : String) :
    (lookupEntry cache args.resolveDir args.path = none →
      tf (resolveFn args) (typeOfFn args) = .error e →
      (cachedGet tf resolveFn typeOfFn mtime cache args).1 = .error e ∧
      lookupEntry (cachedGet tf resolveFn typeOfFn mtime cache args).2.1
          args.resolveDir args.path = none) ∧
    (∀ (group : Group) (c : CachedResult),
      List.lookup args.resolveDir cache = some group →
      List.lookup args.path group = some c →
      (c.result.watchFiles.map mtime).any (fun m => decide (c.mtimeMs < m)) = true →
      tf (c.result.watchFiles.headD "") c.type = .error e →
      (cachedGet tf resolveFn typeOfFn mtime cache args).1 = .error e ∧
      (cachedGet tf resolveFn typeOfFn mtime cache args).2.1 = cache) := by
  constructor
  · intro hmiss htf
    cases hcase : List.lookup args.resolveDir cache with
    | none =>
        refine ⟨?_, ?_⟩ <;>
          simp [cachedGet, hcase, htf, lookupEntry, lookup_assocSet_self, List.lookup]
    | some g =>
        have hpath : List.lookup args.path g = none := by
          simpa [lookupEntry, hcase] using hmiss
        refine ⟨?_, ?_⟩ <;>
          simp [cachedGet, hcase, hpath, htf, lookupEntry]
  · intro group c hg hc hany htf
    simp only [List.headD_eq_head?_getD] at htf
    refine ⟨?_, ?_⟩ <;> simp [cachedGet, hg, hc, hany, htf]

/-- Witness for C9: the miss conjunct is applied on an empty cache, the
staleness conjunct on a cache whose single entry has mark 1 and a
dependency with mtime 9. -/
theorem c9_transform_failure_atomicity_witness :
    ((cachedGet (fun _ _ => .error "boom") (fun _ => "root") (fun _ => "css")
        (fun _ => 9) [] ⟨"./z", "sc"⟩).1 = .error "boom" ∧
      lookupEntry (cachedGet (fun _ _ => .error "boom") (fun _ => "root") (fun _ => "css")
        (fun _ => 9) [] ⟨"./z", "sc"⟩).2.1 "sc" "./z" = none) ∧
    ((cachedGet (fun _ _ => .error "boom") (fun _ => "root") (fun _ => "css")
        (fun _ => 9) [("sc", [("./z", ⟨"css", 1, ⟨"old", "css", "", ["D"]⟩⟩)])]
        ⟨"./z", "sc"⟩).1 = .error "boom" ∧
      (cachedGet (fun _ _ => .error "boom") (fun _ => "root") (fun _ => "css")
        (fun _ => 9) [("sc", [("./z", ⟨"css", 1, ⟨"old", "css", "", ["D"]⟩⟩)])]
        ⟨"./z", "sc"⟩).2.1 = [("sc", [("./z", ⟨"css", 1, ⟨"old", "css", "", ["D"]⟩⟩)])]) := by
  constructor
  · exact (c9_transform_failure_atomicity (fun _ _ => .error "boom")
      (fun _ => "root") (fun _ => "css") (fun _ => 9) [] ⟨"./z", "sc"⟩ "boom").1
      (by decide) rfl
  · exact (c9_transform_failure_atomicity (fun _ _ => .error "boom")
      (fun _ => "root") (fun _ => "css") (fun _ => 9)
      [("sc", [("./z", ⟨"css", 1, ⟨"old", "css", "", ["D"]⟩⟩)])] ⟨"./z", "sc"⟩ "boom").2
      [("./z", ⟨"css", 1, ⟨"old", "css", "", ["D"]⟩⟩)]
      ⟨"css", 1, ⟨"old", "css", "", ["D"]⟩⟩
      (by decide) (by decide) (by decide) rfl

end Sass

namespace IncBuild

/-- Character-level test that `pat` occurs at the start of `l`.  The paths
handled by the engine are ASCII, where JavaScript UTF-16 indices and
character indices agree. -/
def charsStartWith : List Char → List Char → Bool
  | _, [] => true
  | [], _ :: _ => false
  | a :: as, b :: bs => a == b && charsStartWith as bs

/-- First index `m` with `i ≤ m < i + fuel` satisfying `p`, scanning
upward from `i`. -/
def findIdxFrom (p : Nat → Bool) : Nat → Nat → Option Nat
  | _, 0 => none
  | i, fuel + 1 => if p i then some i else findIdxFrom p (i + 1) fuel

/-- JavaScript `s.indexOf(pat, start)`: the position of the first
occurrence of `pat` in `s` at or after `start`, or -1 when there is
none. -/
def jsIndexOfFrom (s pat : String) (start : Nat) : Int :=
  match findIdxFrom
      (fun i => decide (start ≤ i) && charsStartWith (s.data.drop i) pat.data)
      0 (s.data.length + 1) with
  | some i => (i : Int)
  | none => -1

/-- Characters of the second colon-separated segment: what JavaScript
`key.split(':')[1]` yields for a string containing a colon. -/
def takeUntilColon : List Char → List Char
  | [] => []
  | c :: cs => if c == ':' then [] else c :: takeUntilColon cs

/-- Characters after the first colon. -/
def dropThroughColon : List Char → List Char
  | [] => []
  | c :: cs => if c == ':' then cs else dropThroughColon cs

/-- part_000 line 119: `inputKey.includes(':') ? inputKey.split(':')[1] :
inputKey`. -/
def stripScheme (key : String) : String :=
  if key.data.contains ':' then ⟨takeUntilColon (dropThroughColon key.data)⟩ else key

/-- A watch target: a single file (leaf) or a dependency package
directory. -/
inductive Target where
  | leaf (path : String)
  | pkg (dir : String)
  deriving DecidableEq, Repr

/-- part_000 lines 119-134, for one metafile input key: strip a
colon-separated resolution-scheme tag; if the remaining path contains
`node_modules` (at first index `index`), look for a `/` starting at
`index + "node_modules".length + 1` and, when one is found at a positive
position `modIndex`, register `input.slice(0, modIndex)` as a package
target — otherwise register nothing; paths without the marker are
registered individually as leaf targets. -/
def classifyInput (inputKey : String) : Option Target :=
  let input := stripScheme inputKey
  let index := jsIndexOfFrom input "node_modules" 0
  if 0 ≤ index then
    let modIndex := jsIndexOfFrom input "/" (index.toNat + "node_modules".data.length + 1)
    if 0 < modIndex then some (.pkg ⟨input.data.take modIndex.toNat⟩) else none
  else some (.leaf input)

/-- Leaf registration of one input key, if any. -/
def leafOf (key : String) : Option String :=
  match classifyInput key with
  | some (.leaf p) => some p
  | _ => none

/-- Package registration of one input key, if any. -/
def pkgOf (key : String) : Option String :=
  match classifyInput key with
  | some (.pkg m) => some m
  | _ => none

/-- The leaf-target set derivable from the input keys of a metafile. -/
def leafTargets (inputs : List String) : Finset String :=
  (inputs.filterMap leafOf).toFinset

/-- The package-target set derivable from the input keys of a metafile. -/
def pkgTargets (inputs : List String) : Finset String :=
  (inputs.filterMap pkgOf).toFinset

/-- Loop body of part_000 lines 118-135: add the target of one input key
to the accumulated `(addedInputs, addedModules)` pair unless it is already
in the corresponding watched set. -/
def addTarget (wIn wMod : Finset String) (acc : Finset String × Finset String)
    (key : String) : Finset String × Finset String :=
  match classifyInput key with
  | some (.pkg m) => if m ∈ wMod then acc else (acc.1, insert m acc.2)
  | some (.leaf p) => if p ∈ wIn then acc else (insert p acc.1, acc.2)
  | none => acc

/-- The `(addedInputs, addedModules)` pair computed by the loop of lines
117-135 from the metafile inputs and the current watched sets. -/
def computeAdded (inputs : List String) (wIn wMod : Finset String) :
    Finset String × Finset String :=
  inputs.foldl (addTarget wIn wMod) (∅, ∅)

/-- The shape of a bundler result, as far as `validateResult` inspects it:
presence of `metafile`, `outputFiles` and `rebuild`.  A present metafile
carries the list of `metafile.inputs` keys. -/
structure BuildShape where
  metafile : Option (List String)
  outputFiles : Option Unit
  hasRebuild : Bool
  deriving DecidableEq, Repr

/-- part_000 lines 18-22 (`validateResult`), with `Except.error` modelling
the thrown `Error` and its exact message. -/
def validateShape (r : BuildShape) : Except String Unit :=
  if r.metafile.isNone then
    .error "incrementalBuild: \"metafile\" option must be \"true\""
  else if r.outputFiles.isNone then
    .error "incrementalBuild: \"write\" option must be \"false\""
  else if !r.hasRebuild then
    .error "incrementalBuild: \"incremental\" option must be \"true\""
  else .ok ()

/-- Outcome of one bundler invocation: the returned promise rejects, or it
resolves with a result of the given shape. -/
inductive Outcome where
  | reject
  | resolve (r : BuildShape)

/-- The bundler, as an oracle giving the outcome of the n-th invocation
(counting from 0). -/
structure Config where
  outcome : Nat → Outcome

/-- One chokidar v3 FSWatcher at the granularity the engine observes: the
set of watched paths (`close()` clears it and removes all listeners;
`add()` re-opens the watcher and extends it; `unwatch()` shrinks it), and
whether a `once` event listener is currently attached. -/
structure WatcherState where
  armed : Finset String
  listening : Bool
  deriving DecidableEq

/-- Program counter of one `triggerBuild()` coroutine, naming the `await`
point it is suspended at.  `entry` is a call scheduled by `.then(...)`
whose body has not begun. -/
inductive TBPc where
  | entry
  | awaitInputClose
  | awaitModuleClose
  | awaitRebuild (idx : Nat)
  | awaitHooks (idx : Nat) (r : BuildShape)
  deriving DecidableEq, Repr

structure Task where
  id : Nat
  pc : TBPc
  deriving DecidableEq, Repr

/-- What one `triggerBuild()` caller resolves with: the spread
`{...NULL_RESULT, rebuild}` carrying the still-current rebuild handle, or
the validated result of the generation it installed. -/
inductive TBResult where
  | nullRes (handle : Nat)
  | okRes (r : BuildShape) (gen : Nat)
  deriving DecidableEq, Repr

/-- The engine state of `incrementalBuild` (part_000 lines 46-176):
the `running` flag, the number of bundler invocations performed so far,
the current `rebuild` handle (0 is the initial `() => build(options)`;
a successful invocation with index `idx` installs handle `idx + 1`), the
never-mutated `watchedInputs` / `watchedModules` sets, both watchers, the
number of pending `startWatchers` timeouts, the suspended `triggerBuild`
coroutines, the results already returned to callers, and a fresh-id
counter. -/
structure EngineState where
  running : Bool
  invocations : Nat
  handle : Nat
  watchedInputs : Finset String
  watchedModules : Finset String
  inputW : WatcherState
  moduleW : WatcherState
  pendingArm : Nat
  tasks : List Task
  finished : List (Nat × TBResult)
  nextId : Nat
  deriving DecidableEq

/-- Lines 96-97 up to the first suspension point: `running = true`
followed by the synchronous part of `inputWatcher.close()` (listeners
removed, watched-path set cleared). -/
def stepStart (s : EngineState) : EngineState :=
  { s with running := true, inputW := ⟨∅, false⟩ }

/-- Line 98: `await moduleWatcher.close()`. -/
def stepCloseModule (s : EngineState) : EngineState :=
  { s with moduleW := ⟨∅, false⟩ }

/-- Line 102: call the current `rebuild` handle — one bundler
invocation. -/
def stepInvoke (s : EngineState) : EngineState :=
  { s with invocations := s.invocations + 1 }

/-- Lines 105-110, the catch block: emit the end event, clear `running`, schedule
`startWatchers`, and return `{...NULL_RESULT, rebuild}`.  The `rebuild`
handle is not replaced. -/
def stepCatch (s : EngineState) : EngineState × TBResult :=
  ({ s with running := false, pendingArm := s.pendingArm + 1 }, .nullRes s.handle)

/-- Lines 112-156, after `onBuildResult` resolves: diff the new metafile
against `watchedInputs` / `watchedModules` (never mutated by the source,
so always empty in reachable states), `unwatch` the removals, `add` the
additions, emit the end event, clear `running`, install the new
generation rebuild handle, schedule `startWatchers`, and return the result. -/
def stepFinishOk (idx : Nat) (r : BuildShape) (s : EngineState) :
    EngineState × TBResult :=
  let inputs := r.metafile.getD []
  let added := computeAdded inputs s.watchedInputs s.watchedModules
  let removedInputs := s.watchedInputs.filter (fun x => x ∉ added.1)
  let removedModules := s.watchedModules.filter (fun x => x ∉ added.2)
  ({ s with
      inputW := ⟨s.inputW.armed \ removedInputs ∪ added.1, s.inputW.listening⟩,
      moduleW := ⟨s.moduleW.armed \ removedModules ∪ added.2, s.moduleW.listening⟩,
      running := false,
      handle := idx + 1,
      pendingArm := s.pendingArm + 1 },
    .okRes r (idx + 1))

/-- The deferred `triggerBuild` scheduled by `.then(triggerBuild)` in the
event handlers: a new coroutine whose body has not begun. -/
def spawn (s : EngineState) : EngineState :=
  { s with tasks := s.tasks ++ [⟨s.nextId, .entry⟩], nextId := s.nextId + 1 }

/-- Lines 73-78 (`onInputEvent`): return immediately when a build is
running, otherwise run the `onWatchEvent` hook (an external no-op here)
and schedule `triggerBuild`. -/
def onInputEvent (s : EngineState) : EngineState :=
  if s.running then s else spawn s

/-- Lines 80-85 (`onModuleEvent`): the same guard. -/
def onModuleEvent (s : EngineState) : EngineState :=
  if s.running then s else spawn s

/-- Scheduler labels: a direct `triggerBuild()` call (which runs
synchronously up to the first `await`), resuming a suspended coroutine at
its await point, a pending `startWatchers` timeout firing (lines 87-93),
and chokidar delivering a filesystem event on one of the watchers (which
requires an attached `once` listener and a watched path, and consumes the
listener). -/
inductive Label where
  | callTB
  | run (tid : Nat)
  | fire
  | fsInput (path : String)
  | fsModule (path : String)
  deriving DecidableEq, Repr

/-- Advance one suspended coroutine by the atomic segment between two
await points, following lines 95-157. -/
def advanceTask (cfg : Config) (s : EngineState) (t : Task) :
    EngineState × Option TBPc × Option TBResult :=
  match t.pc with
  | .entry => (stepStart s, some .awaitInputClose, none)
  | .awaitInputClose => (stepCloseModule s, some .awaitModuleClose, none)
  | .awaitModuleClose => (stepInvoke s, some (.awaitRebuild s.invocations), none)
  | .awaitRebuild idx =>
      match cfg.outcome idx with
      | .reject =>
          let r := stepCatch s
          (r.1, none, some r.2)
      | .resolve sh =>
          match validateShape sh with
          | .error _ =>
              let r := stepCatch s
              (r.1, none, some r.2)
          | .ok _ => (s, some (.awaitHooks idx sh), none)
  | .awaitHooks idx sh =>
      let r := stepFinishOk idx sh s
      (r.1, none, some r.2)

/-- One scheduler step. -/
def step (cfg : Config) (s : EngineState) : Label → EngineState
  | .callTB =>
      let s1 := stepStart s
      { s1 with tasks := s1.tasks ++ [⟨s1.nextId, .awaitInputClose⟩],
                nextId := s1.nextId + 1 }
  | .run tid =>
      match s.tasks.find? (fun t => t.id == tid) with
      | none => s
      | some t =>
          let r := advanceTask cfg s t
          let s1 := r.1
          match r.2.1 with
          | some pc =>
              { s1 with tasks := s1.tasks.map (fun u => if u.id == tid then ⟨tid, pc⟩ else u) }
          | none =>
              { s1 with
                  tasks := s1.tasks.filter (fun u => u.id != tid),
                  finished := s1.finished ++ (match r.2.2 with
                    | some res => [(tid, res)]
                    | none => []) }
  | .fire =>
      match s.pendingArm with
      | 0 => s
      | n + 1 =>
          let s1 := { s with pendingArm := n }
          if s1.running then s1
          else { s1 with inputW := ⟨s1.inputW.armed, true⟩,
                         moduleW := ⟨s1.moduleW.armed, true⟩ }
  | .fsInput p =>
      if s.inputW.listening && decide (p ∈ s.inputW.armed) then
        onInputEvent { s with inputW := ⟨s.inputW.armed, false⟩ }
      else s
  | .fsModule p =>
      if s.moduleW.listening && decide (p ∈ s.moduleW.armed) then
        onModuleEvent { s with moduleW := ⟨s.moduleW.armed, false⟩ }
      else s

/-- Run a schedule. -/
def exec (cfg : Config) (L : List Label) (s : EngineState) : EngineState :=
  L.foldl (step cfg) s

/-- The engine state at the start of `incrementalBuild`, before the
initial `triggerBuild()` of line 172. -/
def init : EngineState :=
  { running := false, invocations := 0, handle := 0, watchedInputs := ∅,
    watchedModules := ∅, inputW := ⟨∅, false⟩, moduleW := ⟨∅, false⟩,
    pendingArm := 0, tasks := [], finished := [], nextId := 0 }

/-- One complete, uninterleaved, successful `triggerBuild` run from `s`
whose bundler invocation resolves with shape `r`: the machine segments
composed in program order. -/
def runBuildOk (s : EngineState) (r : BuildShape) : EngineState × TBResult :=
  stepFinishOk s.invocations r (stepInvoke (stepCloseModule (stepStart s)))

/-- Shape of the object a `triggerBuild` caller receives, as seen by the
`validateResult(initialResult)` call of line 173: `NULL_RESULT` carries an empty
metafile, an empty `outputFiles` array and the still-current (truthy)
`rebuild` handle. -/
def resultShape : TBResult → BuildShape
  | .nullRes _ => { metafile := some [], outputFiles := some (), hasRebuild := true }
  | .okRes r _ => r

/-- part_000 lines 172-175: run the initial `triggerBuild()` to
completion, then `validateResult(initialResult)`; `Except.error` models an
exception propagating out of `incrementalBuild`. -/
def incrementalBuildModel (cfg : Config) : Except String TBResult :=
  let s := exec cfg [.callTB, .run 0, .run 0, .run 0, .run 0] init
  match List.lookup 0 s.finished with
  | some res =>
      match validateShape (resultShape res) with
      | .ok _ => .ok res
      | .error e => .error e
  | none => .error "build did not settle"

theorem advanceTask_preserves_watched (cfg : Config) (s : EngineState) (t : Task) :
    (advanceTask cfg s t).1.watchedInputs = s.watchedInputs ∧
    (advanceTask cfg s t).1.watchedModules = s.watchedModules := by
  obtain ⟨tid, pc⟩ := t
  cases pc with
  | entry => simp [advanceTask, stepStart]
  | awaitInputClose => simp [advanceTask, stepCloseModule]
  | awaitModuleClose => simp [advanceTask, stepInvoke]
  | awaitRebuild idx =>
      cases ho : cfg.outcome idx with
      | reject => simp [advanceTask, ho, stepCatch]
      | resolve sh =>
          cases hv : validateShape sh with
          | error e => simp [advanceTask, ho, hv, stepCatch]
          | ok u => simp [advanceTask, ho, hv]
  | awaitHooks idx sh => simp [advanceTask, stepFinishOk]

theorem step_preserves_watched (cfg : Config) (s : EngineState) (l : Label) :
    (step cfg s l).watchedInputs = s.watchedInputs ∧
    (step cfg s l).watchedModules = s.watchedModules := by
  cases l with
  | callTB => simp [step, stepStart]
  | run tid =>
      simp only [step]
      cases hf : s.tasks.find? (fun t => t.id == tid) with
      | none => simp
      | some t =>
          have h := advanceTask_preserves_watched cfg s t
          cases h2 : (advanceTask cfg s t).2.1 with
          | some pc => simp [h2, h.1, h.2]
          | none => simp [h2, h.1, h.2]
  | fire =>
      cases hp : s.pendingArm with
      | zero => simp [step, hp]
      | succ n =>
          by_cases hr : s.running <;> simp [step, hp, hr]
  | fsInput p =>
      by_cases hc : (s.inputW.listening && decide (p ∈ s.inputW.armed)) = true
      · by_cases hr : s.running <;> simp [step, hc, onInputEvent, spawn, hr]
      · simp [step, hc]
  | fsModule p =>
      by_cases hc : (s.moduleW.listening && decide (p ∈ s.moduleW.armed)) = true
      · by_cases hr : s.running <;> simp [step, hc, onModuleEvent, spawn, hr]
      · simp [step, hc]

/-- The source never writes `watchedInputs` or `watchedModules` (they are
only read, at lines 129, 133, 137 and 140), so both stay empty in every
reachable state. -/
theorem exec_watched_empty (cfg : Config) (L : List Label) :
    (exec cfg L init).watchedInputs = ∅ ∧ (exec cfg L init).watchedModules = ∅ := by
  suffices h : ∀ s : EngineState, s.watchedInputs = ∅ → s.watchedModules = ∅ →
      (exec cfg L s).watchedInputs = ∅ ∧ (exec cfg L s).watchedModules = ∅ by
    exact h init rfl rfl
  induction L with
  | nil => intro s h1 h2; exact ⟨h1, h2⟩
  | cons l t ih =>
      intro s h1 h2
      have hp := step_preserves_watched cfg s l
      have := ih (step cfg s l) (hp.1.trans h1) (hp.2.trans h2)
      simpa [exec] using this

theorem foldl_addTarget_empty (inputs : List String) (a b : Finset String) :
    inputs.foldl (addTarget ∅ ∅) (a, b) =
      (a ∪ (inputs.filterMap leafOf).toFinset, b ∪ (inputs.filterMap pkgOf).toFinset) := by
  induction inputs generalizing a b with
  | nil => simp
  | cons k t ih =>
      cases hk : classifyInput k with
      | none =>
          have h1 : leafOf k = none := by simp [leafOf, hk]
          have h2 : pkgOf k = none := by simp [pkgOf, hk]
          simp [addTarget, hk, h1, h2, ih]
      | some tgt =>
          cases tgt with
          | leaf p =>
              have h1 : leafOf k = some p := by simp [leafOf, hk]
              have h2 : pkgOf k = none := by simp [pkgOf, hk]
              simp [addTarget, hk, h1, h2, ih, Finset.insert_union, Finset.union_insert]
          | pkg m =>
              have h1 : leafOf k = none := by simp [leafOf, hk]
              have h2 : pkgOf k = some m := by simp [pkgOf, hk]
              simp [addTarget, hk, h1, h2, ih, Finset.insert_union, Finset.union_insert]

theorem computeAdded_empty (inputs : List String) :
    computeAdded inputs ∅ ∅ = (leafTargets inputs, pkgTargets inputs) := by
  simp [computeAdded, foldl_addTarget_empty, leafTargets, pkgTargets]

/-- C2: watch-set convergence.  From any reachable engine state, a
complete successful `triggerBuild` run whose metafile lists `inputs`
leaves the fine-grained watcher armed with exactly the leaf targets of
`inputs` and the polling watcher armed with exactly the package targets of
`inputs`, independent of what was armed before: `close()` cleared both
watchers at the start of the run, and because `watchedInputs` /
`watchedModules` stay empty (`exec_watched_empty`) the loop re-adds the
full classification of the new metafile. -/
theorem c2_watch_set_convergence (cfg : Config) (L : List Label)
    (r : BuildShape) (inputs : List String) (hm : r.metafile = some inputs) :
    (runBuildOk (exec cfg L init) r).1.inputW.armed = leafTargets inputs ∧
    (runBuildOk (exec cfg L init) r).1.moduleW.armed = pkgTargets inputs := by
  obtain ⟨h1, h2⟩ := exec_watched_empty cfg L
  constructor <;>
    simp [runBuildOk, stepFinishOk, stepInvoke, stepCloseModule, stepStart, hm, h1, h2,
      computeAdded_empty]

/-- Metafile of the C2 witness: one source file and one file nested inside
a dependency, with a resolution-scheme tag. -/
def c2wShape : BuildShape :=
  ⟨some ["src/app.ts", "ns:node_modules/react/index.js"], some (), true⟩

/-- Witness for C2 with a nonempty schedule before the run. -/
theorem c2_watch_set_convergence_witness :
    c2wShape.metafile = some ["src/app.ts", "ns:node_modules/react/index.js"] ∧
    ((runBuildOk (exec ⟨fun _ => .reject⟩ [.callTB] init) c2wShape).1.inputW.armed =
        leafTargets ["src/app.ts", "ns:node_modules/react/index.js"] ∧
      (runBuildOk (exec ⟨fun _ => .reject⟩ [.callTB] init) c2wShape).1.moduleW.armed =
        pkgTargets ["src/app.ts", "ns:node_modules/react/index.js"]) :=
  ⟨rfl, c2_watch_set_convergence ⟨fun _ => .reject⟩ [.callTB] c2wShape
    ["src/app.ts", "ns:node_modules/react/index.js"] rfl⟩

/-- Bundler that always resolves with a valid one-file result. -/
def cfgOkA : Config := ⟨fun _ => .resolve ⟨some ["src/a.ts"], some (), true⟩⟩

/-- Schedule with two direct `triggerBuild()` calls, the second arriving
while the first is still `Building`, then both coroutines run to
completion. -/
def c1Sched : List Label :=
  [.callTB, .callTB, .run 0, .run 0, .run 0, .run 0, .run 1, .run 1, .run 1, .run 1]

/-- C1 counterexample: `triggerBuild` is not single-flight.  After one
`triggerBuild()` call the state is `Building` (`running = true`); a second
direct call in that state leads to two bundler invocations (not one), and
the two callers resolve with different settled generations (handles 1 and
2), contradicting the claim that concurrent callers start no additional
bundler invocation and share one settled generation. -/
theorem c1_counterexample :
    (exec cfgOkA [.callTB] init).running = true ∧
    (exec cfgOkA c1Sched init).invocations = 2 ∧
    List.lookup 0 (exec cfgOkA c1Sched init).finished =
      some (.okRes ⟨some ["src/a.ts"], some (), true⟩ 1) ∧
    List.lookup 1 (exec cfgOkA c1Sched init).finished =
      some (.okRes ⟨some ["src/a.ts"], some (), true⟩ 2) := by
  decide

/-- C1 amended: `triggerBuild` itself has no re-entrancy guard; the
single-flight protection in the source lives in the watch-event handlers,
which return without scheduling a build while `running` is set, so builds
triggered through watch events never start a second bundler invocation. -/
theorem c1_amended_handler_guard (s : EngineState) (h : s.running = true) :
    onInputEvent s = s ∧ onModuleEvent s = s := by
  simp [onInputEvent, onModuleEvent, h]

/-- Witness for the amended C1 theorem at the state right after a build
has started. -/
theorem c1_amended_handler_guard_witness :
    (stepStart init).running = true ∧
    (onInputEvent (stepStart init) = stepStart init ∧
      onModuleEvent (stepStart init) = stepStart init) :=
  ⟨rfl, c1_amended_handler_guard (stepStart init) rfl⟩

theorem step_fsInput_unarmed (cfg : Config) (s : EngineState) (p : String)
    (h : s.inputW.armed = ∅) : step cfg s (.fsInput p) = s := by
  simp [step, h]

theorem step_fsModule_unarmed (cfg : Config) (s : EngineState) (p : String)
    (h : s.moduleW.armed = ∅) : step cfg s (.fsModule p) = s := by
  simp [step, h]

theorem step_fire_nopending (cfg : Config) (s : EngineState)
    (h : s.pendingArm = 0) : step cfg s .fire = s := by
  simp [step, h]

/-- Metafile with one source file and one file inside a dependency. -/
def shapeAB : BuildShape :=
  ⟨some ["src/a.ts", "node_modules/lib/index.js"], some (), true⟩

/-- Bundler whose initial invocation succeeds with `shapeAB` and whose
rebuild invocation rejects. -/
def cfg4 : Config := ⟨fun n => if n = 0 then .resolve shapeAB else .reject⟩

/-- Initial build succeeds and arms watchers; the timeout fires; an edit
on the watched source file triggers a rebuild, which fails; the failure
path schedules its `startWatchers` timeout, which then fires. -/
def c4Sched : List Label :=
  [.callTB, .run 0, .run 0, .run 0, .run 0, .fire, .fsInput "src/a.ts",
    .run 1, .run 1, .run 1, .run 1, .fire]

/-- C4 exhibit.  When the rebuild invocation rejects, the failing caller
does receive `{...NULL_RESULT, rebuild}` and the previous generation
rebuild handle (1) is not replaced — those parts of the claim hold.  But
the watchers are NOT re-armed in any useful sense: `close()` (run at the
start of the failed build) cleared both watched-path sets, the failure
path only re-attaches `once` listeners without re-adding any path, and so
after the failed build both watchers watch the empty set.  No filesystem
event on any path, and no timeout, can change the state again: the system
is permanently unwatched, contradicting the claim that a subsequent edit
can retry. -/
theorem c4_failed_rebuild_leaves_unwatched :
    (List.lookup 1 (exec cfg4 c4Sched init).finished = some (.nullRes 1) ∧
      (exec cfg4 c4Sched init).handle = 1 ∧
      (exec cfg4 c4Sched init).inputW.listening = true ∧
      (exec cfg4 c4Sched init).moduleW.listening = true ∧
      (exec cfg4 c4Sched init).inputW.armed = ∅ ∧
      (exec cfg4 c4Sched init).moduleW.armed = ∅ ∧
      (exec cfg4 c4Sched init).tasks = [] ∧
      (exec cfg4 c4Sched init).pendingArm = 0) ∧
    (∀ p : String,
      step cfg4 (exec cfg4 c4Sched init) (.fsInput p) = exec cfg4 c4Sched init ∧
      step cfg4 (exec cfg4 c4Sched init) (.fsModule p) = exec cfg4 c4Sched init ∧
      step cfg4 (exec cfg4 c4Sched init) .fire = exec cfg4 c4Sched init) := by
  have H : List.lookup 1 (exec cfg4 c4Sched init).finished = some (.nullRes 1) ∧
      (exec cfg4 c4Sched init).handle = 1 ∧
      (exec cfg4 c4Sched init).inputW.listening = true ∧
      (exec cfg4 c4Sched init).moduleW.listening = true ∧
      (exec cfg4 c4Sched init).inputW.armed = ∅ ∧
      (exec cfg4 c4Sched init).moduleW.armed = ∅ ∧
      (exec cfg4 c4Sched init).tasks = [] ∧
      (exec cfg4 c4Sched init).pendingArm = 0 := by decide
  obtain ⟨hf, hh, hl1, hl2, ha1, ha2, ht, hp⟩ := H
  refine ⟨⟨hf, hh, hl1, hl2, ha1, ha2, ht, hp⟩, fun p => ?_⟩
  exact ⟨step_fsInput_unarmed cfg4 _ p ha1, step_fsModule_unarmed cfg4 _ p ha2,
    step_fire_nopending cfg4 _ hp⟩

/-- Bundler that always resolves with `shapeAB`. -/
def cfgAB : Config := ⟨fun _ => .resolve shapeAB⟩

/-- Initial build, watchers armed, an edit spawns a rebuild which runs its
first segment, so the controller is `Building`. -/
def c6Pre : List Label :=
  [.callTB, .run 0, .run 0, .run 0, .run 0, .fire, .fsInput "src/a.ts", .run 1]

/-- The `c6Pre` prefix, then a change event arriving while `Building`,
then the in-flight build settles and the arming timeout fires. -/
def c6WithEvent : List Label :=
  c6Pre ++ [.fsInput "src/a.ts", .run 1, .run 1, .run 1, .run 1, .fire]

/-- The same schedule without the mid-build change event. -/
def c6WithoutEvent : List Label :=
  c6Pre ++ [.run 1, .run 1, .run 1, .run 1, .fire]

/-- C6 counterexample: a filesystem change event delivered while the
controller is `Building` has no effect whatsoever — the execution with the
event reaches exactly the same state as the execution without it, and
after the in-flight build settles there is no task, no pending timer and
no further invocation: the change is silently dropped and no subsequent
rebuild occurs, contradicting the claim. -/
theorem c6_counterexample :
    (exec cfgAB c6Pre init).running = true ∧
    exec cfgAB c6WithEvent init = exec cfgAB c6WithoutEvent init ∧
    (exec cfgAB c6WithEvent init).tasks = [] ∧
    (exec cfgAB c6WithEvent init).pendingArm = 0 ∧
    (exec cfgAB c6WithEvent init).running = false ∧
    (exec cfgAB c6WithEvent init).invocations = 2 := by
  decide

/-- C6 amended: a filesystem change event delivered while the controller
is `Building` schedules nothing — the coroutine list, the invocation
count and the id counter are all unchanged (at most an attached `once`
listener is consumed), so the change alone causes no subsequent
rebuild. -/
theorem c6_amended_event_while_building_dropped (cfg : Config)
    (s : EngineState) (p : String) (h : s.running = true) :
    ((step cfg s (.fsInput p)).tasks = s.tasks ∧
      (step cfg s (.fsInput p)).invocations = s.invocations ∧
      (step cfg s (.fsInput p)).nextId = s.nextId) ∧
    ((step cfg s (.fsModule p)).tasks = s.tasks ∧
      (step cfg s (.fsModule p)).invocations = s.invocations ∧
      (step cfg s (.fsModule p)).nextId = s.nextId) := by
  constructor
  · by_cases hc : (s.inputW.listening && decide (p ∈ s.inputW.armed)) = true
    · simp [step, hc, onInputEvent, h]
    · simp [step, hc]
  · by_cases hc : (s.moduleW.listening && decide (p ∈ s.moduleW.armed)) = true
    · simp [step, hc, onModuleEvent, h]
    · simp [step, hc]

/-- Witness for the amended C6 theorem at the `Building` state reached by
`c6Pre`. -/
theorem c6_amended_event_while_building_dropped_witness :
    (exec cfgAB c6Pre init).running = true ∧
    (((step cfgAB (exec cfgAB c6Pre init) (.fsInput "src/a.ts")).tasks =
        (exec cfgAB c6Pre init).tasks ∧
      (step cfgAB (exec cfgAB c6Pre init) (.fsInput "src/a.ts")).invocations =
        (exec cfgAB c6Pre init).invocations ∧
      (step cfgAB (exec cfgAB c6Pre init) (.fsInput "src/a.ts")).nextId =
        (exec cfgAB c6Pre init).nextId) ∧
    ((step cfgAB (exec cfgAB c6Pre init) (.fsModule "src/a.ts")).tasks =
        (exec cfgAB c6Pre init).tasks ∧
      (step cfgAB (exec cfgAB c6Pre init) (.fsModule "src/a.ts")).invocations =
        (exec cfgAB c6Pre init).invocations ∧
      (step cfgAB (exec cfgAB c6Pre init) (.fsModule "src/a.ts")).nextId =
        (exec cfgAB c6Pre init).nextId)) :=
  ⟨by decide, c6_amended_event_while_building_dropped cfgAB (exec cfgAB c6Pre init)
    "src/a.ts" (by decide)⟩

/-- An initial bundler result whose `metafile` option is missing. -/
def c10Shape : BuildShape := ⟨none, some (), true⟩

/-- Bundler that always resolves with the metafile-less result. -/
def c10Cfg : Config := ⟨fun _ => .resolve c10Shape⟩

/-- C10 exhibit.  `validateResult` does reject a result without a
metafile, with the message naming the missing option — but that throw
happens inside the try block of `triggerBuild`, whose blanket catch swallows it
and returns `{...NULL_RESULT, rebuild}`; the NULL result carries an empty
metafile, an empty output list and the still-current rebuild handle, so
the second `validateResult(initialResult)` at line 173 passes and
`incrementalBuild` resolves successfully with the NULL result instead of
throwing. -/
theorem c10_invalid_initial_result_swallowed :
    validateShape c10Shape =
      .error "incrementalBuild: \"metafile\" option must be \"true\"" ∧
    incrementalBuildModel c10Cfg = .ok (.nullRes 0) ∧
    validateShape (resultShape (.nullRes 0)) = .ok () ∧
    (exec c10Cfg [.callTB, .run 0, .run 0, .run 0, .run 0] init).invocations = 1 :=
  ⟨rfl, rfl, rfl, by decide⟩

/-- Occurrence of `pat` at character index `i` of `s`. -/
def occursAt (s pat : String) (i : Nat) : Bool :=
  charsStartWith (s.data.drop i) pat.data

theorem charsStartWith_length (l p : List Char) (h : charsStartWith l p = true) :
    p.length ≤ l.length := by
  induction p generalizing l with
  | nil => simp
  | cons b bs ih =>
      cases l with
      | nil => simp [charsStartWith] at h
      | cons a as =>
          simp only [charsStartWith, Bool.and_eq_true] at h
          have := ih as h.2
          simp only [List.length_cons]
          omega

theorem occursAt_lt_length (s pat : String) (j : Nat) (hp : pat.data ≠ [])
    (h : occursAt s pat j = true) : j < s.data.length := by
  have h1 := charsStartWith_length (s.data.drop j) pat.data h
  have h2 : (s.data.drop j).length = s.data.length - j := List.length_drop j s.data
  have h3 : 0 < pat.data.length := List.length_pos.mpr hp
  omega

theorem occursAt_false_of_ge_length (s pat : String) (j : Nat) (hp : pat.data ≠ [])
    (h : s.data.length ≤ j) : occursAt s pat j = false := by
  by_contra hc
  have := occursAt_lt_length s pat j hp (by revert hc; cases occursAt s pat j <;> simp)
  omega

theorem findIdxFrom_eq_some_iff (p : Nat → Bool) (i fuel m : Nat) :
    findIdxFrom p i fuel = some m ↔
      (i ≤ m ∧ m < i + fuel ∧ p m = true ∧ ∀ j, i ≤ j → j < m → p j = false) := by
  induction fuel generalizing i with
  | zero =>
      simp only [findIdxFrom]
      constructor
      · intro h; cases h
      · rintro ⟨h1, h2, -, -⟩; omega
  | succ fuel ih =>
      by_cases hp : p i = true
      · simp only [findIdxFrom, hp, if_true, Option.some_inj]
        constructor
        · rintro rfl
          exact ⟨le_refl i, by omega, hp, fun j hj1 hj2 => by omega⟩
        · rintro ⟨h1, h2, h3, h4⟩
          by_contra hne
          have hlt : i < m := lt_of_le_of_ne h1 hne
          have := h4 i (le_refl i) hlt
          rw [hp] at this
          cases this
      · have hpf : p i = false := by revert hp; cases p i <;> simp
        simp only [findIdxFrom, hpf, Bool.false_eq_true, if_false, ih]
        constructor
        · rintro ⟨h1, h2, h3, h4⟩
          refine ⟨by omega, by omega, h3, fun j hj1 hj2 => ?_⟩
          rcases Nat.eq_or_lt_of_le hj1 with rfl | hj
          · exact hpf
          · exact h4 j hj hj2
        · rintro ⟨h1, h2, h3, h4⟩
          have hne : m ≠ i := by
            intro he; rw [he, hpf] at h3; cases h3
          refine ⟨by omega, by omega, h3, fun j hj1 hj2 => h4 j (by omega) hj2⟩

theorem findIdxFrom_eq_none_iff (p : Nat → Bool) (i fuel : Nat) :
    findIdxFrom p i fuel = none ↔ ∀ j, i ≤ j → j < i + fuel → p j = false := by
  induction fuel generalizing i with
  | zero =>
      simp only [findIdxFrom]
      exact ⟨fun _ j h1 h2 => by omega, fun _ => trivial⟩
  | succ fuel ih =>
      by_cases hp : p i = true
      · simp only [findIdxFrom, hp, if_true]
        constructor
        · intro h; cases h
        · intro h
          have := h i (le_refl i) (by omega)
          rw [hp] at this
          cases this
      · have hpf : p i = false := by revert hp; cases p i <;> simp
        simp only [findIdxFrom, hpf, Bool.false_eq_true, if_false, ih]
        constructor
        · intro h j hj1 hj2
          rcases Nat.eq_or_lt_of_le hj1 with rfl | hj
          · exact hpf
          · exact h j hj (by omega)
        · intro h j hj1 hj2
          exact h j (by omega) (by omega)

theorem jsIndexOfFrom_eq_neg_iff (s pat : String) (start : Nat) (hp : pat.data ≠ []) :
    jsIndexOfFrom s pat start = -1 ↔
      ∀ j, start ≤ j → occursAt s pat j = false := by
  cases hf : findIdxFrom
      (fun i => decide (start ≤ i) && charsStartWith (s.data.drop i) pat.data)
      0 (s.data.length + 1) with
  | some i =>
      have hred : jsIndexOfFrom s pat start = (i : Int) := by
        unfold jsIndexOfFrom; rw [hf]
      rw [hred]
      rw [findIdxFrom_eq_some_iff] at hf
      obtain ⟨-, -, h3, -⟩ := hf
      simp only [Bool.and_eq_true, decide_eq_true_eq] at h3
      constructor
      · intro h; exact absurd h (by omega)
      · intro h
        have := h i h3.1
        rw [occursAt] at this
        rw [this] at h3
        cases h3.2
  | none =>
      have hred : jsIndexOfFrom s pat start = -1 := by
        unfold jsIndexOfFrom; rw [hf]
      rw [hred]
      rw [findIdxFrom_eq_none_iff] at hf
      constructor
      · intro _ j hj
        by_cases hjl : j < s.data.length + 1
        · have := hf j (by omega) (by omega)
          rcases Bool.and_eq_false_iff.mp this with h | h
          · exact absurd hj (by simpa using h)
          · exact h
        · exact occursAt_false_of_ge_length s pat j hp (by omega)
      · intro _; rfl

theorem jsIndexOfFrom_eq_ofNat_iff (s pat : String) (start m : Nat) :
    jsIndexOfFrom s pat start = (m : Int) ↔
      (start ≤ m ∧ m < s.data.length + 1 ∧ occursAt s pat m = true ∧
        ∀ j, start ≤ j → j < m → occursAt s pat j = false) := by
  cases hf : findIdxFrom
      (fun i => decide (start ≤ i) && charsStartWith (s.data.drop i) pat.data)
      0 (s.data.length + 1) with
  | some i =>
      have hred : jsIndexOfFrom s pat start = (i : Int) := by
        unfold jsIndexOfFrom; rw [hf]
      rw [hred]
      rw [findIdxFrom_eq_some_iff] at hf
      obtain ⟨-, h2, h3, h4⟩ := hf
      simp only [Bool.and_eq_true, decide_eq_true_eq] at h3
      constructor
      · intro he
        obtain rfl : i = m := by omega
        refine ⟨h3.1, by omega, h3.2, fun j hj1 hj2 => ?_⟩
        have := h4 j (by omega) hj2
        rcases Bool.and_eq_false_iff.mp this with h | h
        · exact absurd hj1 (by simpa using h)
        · exact h
      · rintro ⟨g1, g2, g3, g4⟩
        rcases Nat.lt_trichotomy i m with hlt | heq | hgt
        · have := g4 i h3.1 hlt
          rw [occursAt] at this
          rw [this] at h3
          cases h3.2
        · omega
        · have := h4 m (by omega) hgt
          rcases Bool.and_eq_false_iff.mp this with h | h
          · exact absurd g1 (by simpa using h)
          · rw [occursAt] at g3; rw [g3] at h; cases h
  | none =>
      have hred : jsIndexOfFrom s pat start = -1 := by
        unfold jsIndexOfFrom; rw [hf]
      rw [hred]
      rw [findIdxFrom_eq_none_iff] at hf
      constructor
      · intro h; exact absurd h (by omega)
      · rintro ⟨g1, g2, g3, -⟩
        have := hf m (by omega) (by omega)
        rcases Bool.and_eq_false_iff.mp this with h | h
        · exact absurd g1 (by simpa using h)
        · rw [occursAt] at g3; rw [g3] at h; cases h

/-- C7 counterexample: the input path `node_modules/foo` (a file directly
inside the dependency directory, with no further slash) contains the
marker but is registered neither as a package target nor as a leaf target
— `classifyInput` yields nothing — contradicting the claim that every
marker-containing input path is registered as a package target. -/
theorem c7_counterexample :
    occursAt (stripScheme "node_modules/foo") "node_modules" 0 = true ∧
    classifyInput "node_modules/foo" = none := by
  decide

/-- C7 amended: after stripping the resolution-scheme tag, an input path
with no occurrence of `node_modules` is registered as a leaf target; for a
path whose first `node_modules` occurrence starts at index `i`, if a `/`
occurs at or after index `i + 13` (one past the character following the
marker) the path is reduced to its prefix up to the first such slash and
registered as a package target, and if no such slash exists the path is
not registered at all. -/
theorem c7_amended_classification (key : String) :
    ((∀ j, occursAt (stripScheme key) "node_modules" j = false) →
        classifyInput key = some (.leaf (stripScheme key))) ∧
    (∀ i, occursAt (stripScheme key) "node_modules" i = true →
      (∀ j, j < i → occursAt (stripScheme key) "node_modules" j = false) →
      ((∀ j, i + 13 ≤ j → occursAt (stripScheme key) "/" j = false) →
          classifyInput key = none) ∧
      (∀ m, i + 13 ≤ m → occursAt (stripScheme key) "/" m = true →
        (∀ j, i + 13 ≤ j → j < m → occursAt (stripScheme key) "/" j = false) →
          classifyInput key = some (.pkg ⟨(stripScheme key).data.take m⟩))) := by
  have hnm : ("node_modules" : String).data ≠ [] := by decide
  have hsl : ("/" : String).data ≠ [] := by decide
  have hlen : ("node_modules" : String).data.length = 12 := by decide
  constructor
  · intro h
    have hidx : jsIndexOfFrom (stripScheme key) "node_modules" 0 = -1 :=
      (jsIndexOfFrom_eq_neg_iff _ _ 0 hnm).mpr (fun j _ => h j)
    simp [classifyInput, hidx]
  · intro i hi hmin
    have hidx : jsIndexOfFrom (stripScheme key) "node_modules" 0 = (i : Int) := by
      rw [jsIndexOfFrom_eq_ofNat_iff]
      have hb := occursAt_lt_length _ _ i hnm hi
      exact ⟨Nat.zero_le i, by omega, hi, fun j _ hj => hmin j hj⟩
    constructor
    · intro hnos
      have hidx2 : jsIndexOfFrom (stripScheme key) "/" (i + 13) = -1 :=
        (jsIndexOfFrom_eq_neg_iff _ _ _ hsl).mpr hnos
      have harith : ((i : Int)).toNat + ("node_modules" : String).data.length + 1 =
          i + 13 := by
        rw [hlen]; omega
      simp [classifyInput, hidx, harith, hidx2]
    · intro m hm13 hm hminm
      have hidx2 : jsIndexOfFrom (stripScheme key) "/" (i + 13) = (m : Int) := by
        rw [jsIndexOfFrom_eq_ofNat_iff]
        have hb := occursAt_lt_length _ _ m hsl hm
        exact ⟨hm13, by omega, hm, hminm⟩
      have harith : ((i : Int)).toNat + ("node_modules" : String).data.length + 1 =
          i + 13 := by
        rw [hlen]; omega
      have hpos : (0 : Int) < (m : Int) := by omega
      have htn : ((m : Int)).toNat = m := by omega
      have hm0 : ¬ m = 0 := by omega
      simp [classifyInput, hidx, harith, hidx2, hpos, htn, hm0]

/-- Witness for the amended C7 theorem on the key
`ns:node_modules/pkg/idx.js`: in the stripped path the first marker occurrence
is at index 0, the first slash at or after index 13 is at index 16, and
the key is registered as the package target `node_modules/pkg`. -/
theorem c7_amended_classification_witness :
    occursAt (stripScheme "ns:node_modules/pkg/idx.js") "node_modules" 0 = true ∧
    occursAt (stripScheme "ns:node_modules/pkg/idx.js") "/" 16 = true ∧
    classifyInput "ns:node_modules/pkg/idx.js" =
      some (.pkg ⟨(stripScheme "ns:node_modules/pkg/idx.js").data.take 16⟩) ∧
    (⟨(stripScheme "ns:node_modules/pkg/idx.js").data.take 16⟩ : String) =
      "node_modules/pkg" := by
  refine ⟨by decide, by decide, ?_, by decide⟩
  exact ((c7_amended_classification "ns:node_modules/pkg/idx.js").2 0 (by decide)
      (fun j hj => absurd hj (Nat.not_lt_zero j))).2 16 (by omega) (by decide)
      (fun j hj1 hj2 => by interval_cases j <;> decide)

end IncBuild

namespace Esbd

/-- Configuration of the dev-server request gate of esbd-serve.ts,
together with the observable contents of the two static roots: the build
output directory served by `outputHandler` and the optional secondary
static root served by `servedirHandler`.  The live-reload handler is out
of scope here: the embedded `handleRequest` covers exactly the requests it
does not claim. -/
structure ServeEnv where
  rewrite : Bool
  servedirConfigured : Bool
  publicPath : String
  outFiles : List (String × String)
  secondaryFiles : List (String × String)
  indexPath : String
  deriving DecidableEq, Repr

/-- The steps `handleRequest` takes, in order. -/
inductive Probe where
  | awaitSettle
  | tryServedir (path : String)
  | tryOutdir (path : String)
  deriving DecidableEq, Repr

/-- The response the request is answered with. -/
inductive Resp where
  | served (content : String)
  | spaIndex (path : String)
  | notFound404
  deriving DecidableEq, Repr

/-- Lines 192-199: strip `publicPath` from the start of the URL path
(the source uses an anchored regular expression; the configured public
paths contain no metacharacters). -/
def strippedPath (env : ServeEnv) (path : String) : String :=
  if IncBuild.charsStartWith path.data env.publicPath.data then
    ⟨path.data.drop env.publicPath.data.length⟩
  else path

/-- esbd-serve lines 189-214 (`handleRequest`) combined with
`staticHandler` from lines 177-182: first `await context.wait()`, then
strip the public path, then probe the static roots — when a `servedir` is
configured, `staticHandler` runs `servedirHandler` FIRST and only falls
through to `outputHandler` — and on a complete miss either stream the
output of the primary HTML entry unconditionally (`rewrite` mode) or answer a
plain 404.  The returned probe list records the order of the suspension
and resolution steps. -/
def handleRequest (env : ServeEnv) (path : String) : List Probe × Resp :=
  let p := strippedPath env path
  if env.servedirConfigured then
    match List.lookup p env.secondaryFiles with
    | some c => ([.awaitSettle, .tryServedir p], .served c)
    | none =>
        match List.lookup p env.outFiles with
        | some c => ([.awaitSettle, .tryServedir p, .tryOutdir p], .served c)
        | none =>
            ([.awaitSettle, .tryServedir p, .tryOutdir p],
              if env.rewrite then .spaIndex env.indexPath else .notFound404)
  else
    match List.lookup p env.outFiles with
    | some c => ([.awaitSettle, .tryOutdir p], .served c)
    | none =>
        ([.awaitSettle, .tryOutdir p],
          if env.rewrite then .spaIndex env.indexPath else .notFound404)

/-- A gate configuration with a secondary root configured and the same
path present in both roots with different contents. -/
def c5Env : ServeEnv :=
  { rewrite := false, servedirConfigured := true, publicPath := "",
    outFiles := [("/app.js", "primary")],
    secondaryFiles := [("/app.js", "secondary")],
    indexPath := "index.html" }

/-- C5 counterexample: with a secondary static root configured and
`/app.js` present in both roots, the request is resolved by the
`servedir` handler — the output directory is never probed and the
response carries the content of the secondary root, not that of the output
directory — contradicting the claimed order (output directory first,
then the secondary root). -/
theorem c5_counterexample :
    handleRequest c5Env "/app.js" =
      ([.awaitSettle, .tryServedir "/app.js"], .served "secondary") ∧
    (Resp.served "secondary" ≠ Resp.served "primary") := by
  decide

/-- C5 amended: every request (not claimed by the live-reload handler)
first awaits the controller `wait()`; only after settlement is static
resolution attempted — against the secondary static root FIRST when one
is configured, then against the build output directory — and a path
matching neither is answered with the output of the primary HTML entry
unconditionally in SPA-rewrite mode, or a generic 404 otherwise. -/
theorem c5_amended_request_gate (env : ServeEnv) (path : String) :
    ((handleRequest env path).1.head? = some .awaitSettle) ∧
    (env.servedirConfigured = true →
      (∀ c, List.lookup (strippedPath env path) env.secondaryFiles = some c →
        handleRequest env path =
          ([.awaitSettle, .tryServedir (strippedPath env path)], .served c)) ∧
      (List.lookup (strippedPath env path) env.secondaryFiles = none →
        (∀ c, List.lookup (strippedPath env path) env.outFiles = some c →
          handleRequest env path =
            ([.awaitSettle, .tryServedir (strippedPath env path),
              .tryOutdir (strippedPath env path)], .served c)) ∧
        (List.lookup (strippedPath env path) env.outFiles = none →
          handleRequest env path =
            ([.awaitSettle, .tryServedir (strippedPath env path),
              .tryOutdir (strippedPath env path)],
              if env.rewrite then .spaIndex env.indexPath else .notFound404)))) ∧
    (env.servedirConfigured = false →
      (∀ c, List.lookup (strippedPath env path) env.outFiles = some c →
        handleRequest env path =
          ([.awaitSettle, .tryOutdir (strippedPath env path)], .served c)) ∧
      (List.lookup (strippedPath env path) env.outFiles = none →
        handleRequest env path =
          ([.awaitSettle, .tryOutdir (strippedPath env path)],
            if env.rewrite then .spaIndex env.indexPath else .notFound404))) := by
  refine ⟨?_, ?_, ?_⟩
  · by_cases hs : env.servedirConfigured <;>
      [skip; skip] <;>
    · cases h1 : List.lookup (strippedPath env path) env.secondaryFiles <;>
        cases h2 : List.lookup (strippedPath env path) env.outFiles <;>
        simp [handleRequest, hs, h1, h2]
  · intro hs
    refine ⟨fun c hc => ?_, fun hn => ⟨fun c hc => ?_, fun hn2 => ?_⟩⟩
    · simp [handleRequest, hs, hc]
    · simp [handleRequest, hs, hn, hc]
    · simp [handleRequest, hs, hn, hn2]
  · intro hs
    refine ⟨fun c hc => ?_, fun hn => ?_⟩
    · simp [handleRequest, hs, hc]
    · simp [handleRequest, hs, hn]

/-- Witness for the amended C5 theorem at `c5Env` and `/app.js`: the
secondary root is probed first and answers. -/
theorem c5_amended_request_gate_witness :
    List.lookup (strippedPath c5Env "/app.js") c5Env.secondaryFiles = some "secondary" ∧
    handleRequest c5Env "/app.js" =
      ([.awaitSettle, .tryServedir (strippedPath c5Env "/app.js")], .served "secondary") :=
  ⟨by decide,
    ((c5_amended_request_gate c5Env "/app.js").2.1 rfl).1 "secondary" (by decide)⟩

end Esbd
